import Mathlib

set_option maxRecDepth 8000

/-! Shallow embedding of the rotation scheduler, the link signers and the
plan selector of the automated gym-splits repository
(`scripts/send_daily.py`, `scripts/lib/plans.py`, `scripts/lib/signing.py`),
together with theorems checking the specification claims against these
definitions. -/

/-! ## Calendar dates

The Python code receives `today` as an ISO string and parses it with
`datetime.date.fromisoformat`; the embedding takes the parsed date directly
and renders the ISO form with `isoDate` (`date.isoformat()`, zero-padded
`YYYY-MM-DD`; every year that actually occurs is below 10000). -/

structure Date where
  year : Nat
  month : Nat
  day : Nat
deriving DecidableEq

def leapYear (y : Nat) : Bool :=
  y % 4 == 0 && (y % 100 != 0 || y % 400 == 0)

def monthLengths (leap : Bool) : List Nat :=
  [31, if leap then 29 else 28, 31, 30, 31, 30, 31, 31, 30, 31, 30, 31]

def monthLength (leap : Bool) (m : Nat) : Nat :=
  (monthLengths leap).getD (m - 1) 31

/-- Embeds `date.fromisoformat(today) - timedelta(days=1)` (proleptic Gregorian). -/
def predDate (t : Date) : Date :=
  if 2 ≤ t.day then ⟨t.year, t.month, t.day - 1⟩
  else if 2 ≤ t.month then
    ⟨t.year, t.month - 1, monthLength (leapYear t.year) (t.month - 1)⟩
  else ⟨t.year - 1, 12, 31⟩

def digitChar (n : Nat) : Char := Char.ofNat (48 + n % 10)

def pad2 (n : Nat) : String := String.mk [digitChar (n / 10), digitChar n]

def pad4 (n : Nat) : String :=
  String.mk [digitChar (n / 1000), digitChar (n / 100), digitChar (n / 10), digitChar n]

/-- Embeds `date.isoformat()` for the parsed date. -/
def isoDate (t : Date) : String :=
  pad4 t.year ++ "-" ++ pad2 t.month ++ "-" ++ pad2 t.day

/-- Embeds `date.toordinal()`: day count in the proleptic Gregorian calendar with
`0001-01-01` as ordinal 1. -/
def daysBeforeYear (y : Nat) : Nat :=
  (y - 1) * 365 + (y - 1) / 4 - (y - 1) / 100 + (y - 1) / 400

def daysBeforeMonth (leap : Bool) (m : Nat) : Nat :=
  ((monthLengths leap).take (m - 1)).sum

def dateOrdinal (t : Date) : Nat :=
  daysBeforeYear t.year + daysBeforeMonth (leapYear t.year) t.month + t.day

def WEEKDAY_NAMES : List String :=
  ["Monday", "Tuesday", "Wednesday", "Thursday", "Friday", "Saturday", "Sunday"]

/-- Embeds `date.strftime("%A")`: English weekday name; `0001-01-01` was a Monday
(`date(1,1,1).weekday() == 0`). -/
def weekdayName (t : Date) : String :=
  WEEKDAY_NAMES.getD ((dateOrdinal t - 1) % 7) ""

/-! ## Per-user schedule store

`schedules/<username>.json` holds one record per user.  `load_sched`
returns the zero state when the file is missing; the `.get(..., default)`
reads of the two pick functions are folded into the record type, so a
loaded record always carries all three fields. -/

/-- Lexicographic comparison of code-point lists, the order Python uses
for `str` comparisons such as `last_date >= yd`. -/
def charListLe : List Char → List Char → Bool
  | [], _ => true
  | _ :: _, [] => false
  | a :: as, b :: bs =>
    if a.toNat < b.toNat then true
    else if b.toNat < a.toNat then false
    else charListLe as bs

def pyStrLe (a b : String) : Bool := charListLe a.data b.data

structure SchedState where
  current_index : Nat
  last_action : String
  last_action_date : Option String
deriving DecidableEq

def SchedStore : Type := String → Option SchedState

def defaultSched : SchedState := ⟨0, "NONE", none⟩

namespace plans

/-- Embeds `plans.load_sched`: stored record, or the zero state. -/
def load_sched (store : SchedStore) (username : String) : SchedState :=
  (store username).getD defaultSched

/-- Embeds `plans.save_sched`: overwrite the record for `username`. -/
def save_sched (store : SchedStore) (username : String) (st : SchedState) : SchedStore :=
  fun u => if u = username then some st else store u

/-- Embeds `plans.pick_today_index` (scripts/lib/plans.py lines 44-65).
Freezes when `last_action == "SKIPPED"` and the stored date string is
`>=` yesterday; otherwise advances by one modulo `max 1 total`.  Persists
`{current_index: idx, last_action: "NONE", last_action_date: today}` and
returns the pair (returned index, updated store). -/
def pick_today_index (store : SchedStore) (username : String) (today : Date)
    (total : Nat) : Nat × SchedStore :=
  let sched := load_sched store username
  let idx0 := sched.current_index % max 1 total
  let yd := isoDate (predDate today)
  let freeze := sched.last_action == "SKIPPED" &&
    (match sched.last_action_date with
     | none => false
     | some d => pyStrLe yd d)
  let idx := if freeze then idx0 else (idx0 + 1) % max 1 total
  (idx, save_sched store username ⟨idx, "NONE", some (isoDate today)⟩)

end plans

namespace send_daily

/-- Embeds `send_daily.load_sched` (duplicate of the library version). -/
def load_sched (store : SchedStore) (username : String) : SchedState :=
  (store username).getD defaultSched

/-- Embeds `send_daily.save_sched` (duplicate of the library version). -/
def save_sched (store : SchedStore) (username : String) (st : SchedState) : SchedStore :=
  fun u => if u = username then some st else store u

/-- Embeds `send_daily.pick_today_index` (scripts/send_daily.py lines 132-151).
Evaluates the freeze/advance rule only when `last_action_date` differs
from today (the same-day guard); freezes when `last_action == "SKIPPED"`
and the stored date equals yesterday exactly.  Persists
`{current_index: idx, last_action: <prior last_action>, last_action_date: today}`
(the source writes back `sched.get("last_action", "NONE")`, i.e. the
value it loaded) and returns (returned index, updated store). -/
def pick_today_index (store : SchedStore) (username : String) (today : Date)
    (total : Nat) : Nat × SchedStore :=
  let sched := load_sched store username
  let idx0 := sched.current_index % max 1 total
  let idx :=
    if sched.last_action_date ≠ some (isoDate today) then
      let yd := isoDate (predDate today)
      let freeze := sched.last_action == "SKIPPED" &&
        sched.last_action_date == some yd
      if freeze then idx0 else (idx0 + 1) % max 1 total
    else idx0
  (idx, save_sched store username ⟨idx, sched.last_action, some (isoDate today)⟩)

end send_daily

/-! ## Link signing

`scripts/lib/signing.py` and the duplicate signer inside
`scripts/send_daily.py`.  Parameter mappings are embedded as association
lists of strings (`params.items()`; the Python `str(v)` coercion is the
identity on the string values modelled here).  Byte strings are lists of
naturals below 256; 32-bit words are naturals reduced `% 2^32`. -/

/-- UTF-8 encoding of one scalar value (`bytes(ch, "utf-8")`). -/
def utf8Bytes (c : Nat) : List Nat :=
  if c < 128 then [c]
  else if c < 2048 then [192 + c / 64, 128 + c % 64]
  else if c < 65536 then [224 + c / 4096, 128 + (c / 64) % 64, 128 + c % 64]
  else [240 + c / 262144, 128 + (c / 4096) % 64, 128 + (c / 64) % 64, 128 + c % 64]

/-- Embeds `s.encode("utf-8")` as a list of byte values. -/
def strBytes (s : String) : List Nat :=
  (s.data.map fun c => utf8Bytes c.toNat).flatten

/-- Safe bytes of `urllib.parse.quote` with `safe=""`: ASCII alphanumerics
and `_.-~`.  Both call sites use this safe set (`quote_plus(v)` in the
library uses the default `safe=""`; `send_daily.quote_plus` passes
`safe=""` explicitly). -/
def alwaysSafe (b : Nat) : Bool :=
  (48 ≤ b && b ≤ 57) || (65 ≤ b && b ≤ 90) || (97 ≤ b && b ≤ 122) ||
    b == 95 || b == 46 || b == 45 || b == 126

def hexUpper (n : Nat) : Char :=
  if n < 10 then Char.ofNat (48 + n) else Char.ofNat (55 + n)

def quoteByte (b : Nat) : List Char :=
  if alwaysSafe b then [Char.ofNat b]
  else if b == 32 then [Char.ofNat 43]
  else [Char.ofNat 37, hexUpper (b / 16), hexUpper (b % 16)]

/-- Embeds `urllib.parse.quote_plus(str(s), safe="")`: percent-encode the UTF-8
bytes, space as `+`, uppercase hex. -/
def quote_plus (s : String) : String :=
  String.mk (((strBytes s).map quoteByte).flatten)

/-! ### SHA-256 and HMAC (`hashlib.sha256`, `hmac.new`) -/

def w32 (n : Nat) : Nat := n % 4294967296

def rotr32 (k x : Nat) : Nat := w32 (x >>> k ||| x <<< (32 - k))

def bSig0 (x : Nat) : Nat := rotr32 2 x ^^^ rotr32 13 x ^^^ rotr32 22 x

def bSig1 (x : Nat) : Nat := rotr32 6 x ^^^ rotr32 11 x ^^^ rotr32 25 x

def sSig0 (x : Nat) : Nat := rotr32 7 x ^^^ rotr32 18 x ^^^ (x >>> 3)

def sSig1 (x : Nat) : Nat := rotr32 17 x ^^^ rotr32 19 x ^^^ (x >>> 10)

def SHA256_K : List Nat :=
  [1116352408, 1899447441, 3049323471, 3921009573, 961987163, 1508970993,
   2453635748, 2870763221, 3624381080, 310598401, 607225278, 1426881987,
   1925078388, 2162078206, 2614888103, 3248222580, 3835390401, 4022224774,
   264347078, 604807628, 770255983, 1249150122, 1555081692, 1996064986,
   2554220882, 2821834349, 2952996808, 3210313671, 3336571891, 3584528711,
   113926993, 338241895, 666307205, 773529912, 1294757372, 1396182291,
   1695183700, 1986661051, 2177026350, 2456956037, 2730485921, 2820302411,
   3259730800, 3345764771, 3516065817, 3600352804, 4094571909, 275423344,
   430227734, 506948616, 659060556, 883997877, 958139571, 1322822218,
   1537002063, 1747873779, 1955562222, 2024104815, 2227730452, 2361852424,
   2428436474, 2756734187, 3204031479, 3329325298]

def SHA256_H0 : List Nat :=
  [1779033703, 3144134277, 1013904242, 2773480762,
   1359893119, 2600822924, 528734635, 1541459225]

/-- The `k` bytes of `n`, big-endian. -/
def beBytes (k n : Nat) : List Nat :=
  (List.range k).map fun i => (n >>> (8 * (k - 1 - i))) % 256

/-- Message padding: `0x80`, zeros to 56 mod 64, 8-byte big-endian bit length. -/
def sha256Pad (msg : List Nat) : List Nat :=
  let L := msg.length
  let zeros := (64 + 55 - L % 64) % 64
  msg ++ [128] ++ List.replicate zeros 0 ++ beBytes 8 (8 * L)

def bytesToWords : List Nat → List Nat
  | a :: b :: c :: d :: rest =>
      (a <<< 24 ||| b <<< 16 ||| c <<< 8 ||| d) :: bytesToWords rest
  | _ => []

/-- Extend the 16 block words to the 64-entry message schedule. -/
def extendW : Nat → List Nat → List Nat
  | 0, w => w
  | fuel + 1, w =>
      let n := w.length
      let x := w32 (sSig1 (w.getD (n - 2) 0) + w.getD (n - 7) 0 +
        sSig0 (w.getD (n - 15) 0) + w.getD (n - 16) 0)
      extendW fuel (w ++ [x])

def shaRound (st : List Nat) (k : Nat) (w : Nat) : List Nat :=
  match st with
  | [a, b, c, d, e, f, g, h] =>
      let ch := (e &&& f) ^^^ ((e ^^^ 4294967295) &&& g)
      let maj := (a &&& b) ^^^ (a &&& c) ^^^ (b &&& c)
      let t1 := w32 (h + bSig1 e + ch + k + w)
      let t2 := w32 (bSig0 a + maj)
      [w32 (t1 + t2), a, b, c, w32 (d + t1), e, f, g]
  | other => other

def compressBlock (h : List Nat) (blockWords : List Nat) : List Nat :=
  let w := extendW 48 blockWords
  let st := (List.zip SHA256_K w).foldl (fun st kw => shaRound st kw.1 kw.2) h
  (List.zip h st).map fun p => w32 (p.1 + p.2)

def chunk64Go : Nat → List Nat → List (List Nat)
  | 0, _ => []
  | _, [] => []
  | fuel + 1, b :: rest => ((b :: rest).take 64) :: chunk64Go fuel ((b :: rest).drop 64)

/-- Split a byte list into 64-byte blocks (each block shrinks the list by
at least one element, so the length is enough fuel). -/
def chunk64 (bs : List Nat) : List (List Nat) := chunk64Go bs.length bs

def sha256 (msg : List Nat) : List Nat :=
  let blocks := chunk64 (sha256Pad msg)
  let h := blocks.foldl (fun h b => compressBlock h (bytesToWords b)) SHA256_H0
  (h.map (beBytes 4)).flatten

/-- Embeds `hmac.new(key, msg, hashlib.sha256).digest()`. -/
def hmacSha256 (key msg : List Nat) : List Nat :=
  let k0 := if 64 < key.length then sha256 key else key
  let k := k0 ++ List.replicate (64 - k0.length) 0
  sha256 ((k.map fun b => b ^^^ 92) ++ sha256 ((k.map fun b => b ^^^ 54) ++ msg))

def B64URL : List Char :=
  "ABCDEFGHIJKLMNOPQRSTUVWXYZabcdefghijklmnopqrstuvwxyz0123456789-_".data

/-- Embeds `base64.urlsafe_b64encode(b).decode().rstrip("=")`. -/
def b64urlChars : List Nat → List Char
  | a :: b :: c :: rest =>
      B64URL.getD (a >>> 2) 'A' :: B64URL.getD (((a &&& 3) <<< 4) ||| (b >>> 4)) 'A' ::
      B64URL.getD (((b &&& 15) <<< 2) ||| (c >>> 6)) 'A' :: B64URL.getD (c &&& 63) 'A' ::
      b64urlChars rest
  | [a, b] =>
      [B64URL.getD (a >>> 2) 'A', B64URL.getD (((a &&& 3) <<< 4) ||| (b >>> 4)) 'A',
       B64URL.getD ((b &&& 15) <<< 2) 'A']
  | [a] =>
      [B64URL.getD (a >>> 2) 'A', B64URL.getD ((a &&& 3) <<< 4) 'A']
  | [] => []

def b64url (bs : List Nat) : String := String.mk (b64urlChars bs)

/-! ### The two signer implementations -/

namespace signing

/-- The lexicographic order in which Python `sorted` arranges the
`(key, value)` tuples. -/
def pairLe (a b : String × String) : Prop :=
  a.1 < b.1 ∨ (a.1 = b.1 ∧ a.2 ≤ b.2)

instance : DecidableRel pairLe := fun a b => by
  unfold pairLe
  exact inferInstance

/-- Embeds `signing.sign_params` (scripts/lib/signing.py lines 5-15): sort the
`(k, str(v))` pairs with `"t"` filtered out, join `k=quote_plus(v)` with
`&`, HMAC-SHA256 with the secret, url-safe base64 without padding.  The
source contains no failure path (an `hmac` key may be empty), so the
result is always `.ok`. -/
def sign_params (params : List (String × String)) (secret : String) :
    Except String String :=
  let items := List.insertionSort pairLe (params.filter fun kv => kv.1 != "t")
  let canonical := String.intercalate "&" (items.map fun kv => kv.1 ++ "=" ++ quote_plus kv.2)
  .ok (b64url (hmacSha256 (strBytes secret) (strBytes canonical)))

end signing

namespace send_daily

def dictGet (params : List (String × String)) (k : String) : String :=
  ((params.find? fun kv => kv.1 == k).map Prod.snd).getD ""

/-- Embeds `send_daily.sign_params` (scripts/send_daily.py lines 71-81): raise
when `SIGNING_SECRET` (here the `secret` argument) is empty; otherwise
sort the keys, join `k=quote_plus(params[k])` with `&`, HMAC-SHA256,
url-safe base64 without padding.  No `"t"` filtering. -/
def sign_params (secret : String) (params : List (String × String)) :
    Except String String :=
  if secret = "" then .error "SIGNING_SECRET is not set"
  else
    let keys := List.insertionSort (fun a b : String => a ≤ b) (params.map Prod.fst)
    let canonical := String.intercalate "&" (keys.map fun k => k ++ "=" ++ quote_plus (dictGet params k))
    .ok (b64url (hmacSha256 (strBytes secret) (strBytes canonical)))

end send_daily

/-! ## Plan selector (`scripts/send_daily.py` lines 154-232)

The external collaborators (config file, split files, per-day activity
JSON) are embedded as fields of a `World` record; the schedules store is
the same `SchedStore` the rotation scheduler mutates. -/

structure Exercise where
  id : String
  name : String
  sets : Option Int
  reps : Option String
deriving DecidableEq

structure Split where
  title : String
  exercises : List Exercise
deriving DecidableEq

/-- A raw JSON object with optional `title` / `exercises` keys, before
defaults are filled in (`load_split_file`, `custom_plan`). -/
structure SplitFile where
  title : Option String
  exercises : Option (List Exercise)
deriving DecidableEq

/-- Shapes a present weekly-override entry can take.  `sched.get(weekday)`
yields Python `None` both for a missing key and for a JSON null, so those
two cases are collapsed into `none` of the surrounding `Option`. -/
inductive JVal where
  | str (s : String)
  | num (n : Int)
  | bool (b : Bool)
deriving DecidableEq

/-- Python `repr` of the entry, as the error message interpolates it. -/
def jsonRepr : JVal → String
  | .str s => "\x27" ++ s ++ "\x27"
  | .num n => toString n
  | .bool b => if b then "True" else "False"

/-- Embeds `str.strip()` on ASCII whitespace. -/
def pyStrip (s : String) : String := s.trim

/-- Embeds `pathlib.Path(...).stem`: final component minus its last suffix. -/
def pyStem (s : String) : String :=
  let parts := s.splitOn "."
  if parts.length ≤ 1 then s else String.intercalate "." parts.dropLast

structure World where
  scheduleJson : Option (String → Option JVal)
  splits : String → Option SplitFile
  customPlan : String → Date → Option SplitFile
  schedStore : SchedStore

inductive SchedMode where
  | rest (title message : String)
  | split (s : Split)
deriving DecidableEq

inductive DayOutcome where
  | restDay (title message : String)
  | workout (s : Split)
deriving DecidableEq

namespace send_daily

def DEFAULT_ROTATION_TITLES : List String :=
  ["Push Day", "Pull Day", "Leg + Abs Day", "Focus Day", "Full Body Power Day"]

def TITLE_TO_FILE : List (String × String) :=
  [("Push Day", "Push_Day.json"), ("Pull Day", "Pull_Day.json"),
   ("Leg + Abs Day", "Leg_plus_Abs_Day.json"), ("Focus Day", "Focus_Day.json"),
   ("Full Body Power Day", "Full_Body_Power_Day.json")]

/-- Embeds `send_daily.slug`. -/
def slug (s : String) : String :=
  let mapped := String.mk (s.data.map fun c => if c.isAlphanum then c.toLower else '-')
  let stripped := String.mk
    (((mapped.data.dropWhile (· = '-')).reverse.dropWhile (· = '-')).reverse)
  stripped.replace "--" "-"

/-- Embeds `send_daily.load_split_file`: fill in `title` (from the file stem,
dashes and underscores turned into spaces) and `exercises` (empty). -/
def load_split_file (fname : String) (f : SplitFile) : Split :=
  { title := f.title.getD (((pyStem fname).replace "-" " ").replace "_" " ")
    exercises := f.exercises.getD [] }

/-- Fallback arm of `load_default_split_by_title`: try `slug(title).json`,
then `FileNotFoundError`. -/
def fallbackSlug (w : World) (title : String) : Except String Split :=
  let fn := slug title ++ ".json"
  match w.splits fn with
  | some f => .ok (load_split_file fn f)
  | none => .error ("Missing split file for title " ++ title)

/-- Embeds `send_daily.load_default_split_by_title`: explicit `TITLE_TO_FILE`
mapping first, `slug(title).json` as fallback, `FileNotFoundError`
otherwise. -/
def load_default_split_by_title (w : World) (title : String) : Except String Split :=
  match (TITLE_TO_FILE.find? fun kv => kv.1 == title).map Prod.snd with
  | some fn =>
    match w.splits fn with
    | some f => .ok (load_split_file fn f)
    | none => fallbackSlug w title
  | none => fallbackSlug w title

/-- Embeds `send_daily.load_custom_plan_for_today`: the `custom_plan` object of
the day's activity JSON with defaults applied; a missing file, a parse
failure and a falsy `custom_plan` value all yield `none`. -/
def load_custom_plan_for_today (w : World) (username : String) (today : Date) :
    Option Split :=
  (w.customPlan username today).map fun p =>
    ⟨p.title.getD "Custom Session", p.exercises.getD []⟩

def REST_MESSAGE : String :=
  "Today is a rest day. If you still want to train, use Customized Session to log a light or mobility workout."

/-- Embeds `send_daily.pick_scheduled_split_or_rest` (lines 177-207).
`.ok none` when `config/schedule.json` is missing; a rest marker for a
missing/null/blank/"rest" entry; `ValueError` for a present non-string
entry; the configured split (or `FileNotFoundError`) for a string. -/
def pick_scheduled_split_or_rest (w : World) (today : Date) :
    Except String (Option SchedMode) :=
  match w.scheduleJson with
  | none => .ok none
  | some sched =>
    let weekday := weekdayName today
    match sched weekday with
    | none => .ok (some (.rest "Rest Day" REST_MESSAGE))
    | some (.str e) =>
      if pyStrip e == "" || (pyStrip e).toLower == "rest" then
        .ok (some (.rest "Rest Day" REST_MESSAGE))
      else
        match w.splits e with
        | some f => .ok (some (.split (load_split_file e f)))
        | none =>
          .error ("Configured split " ++ e ++ " not found in /splits for " ++ weekday ++ ".")
    | some v =>
      .error ("schedule.json entry for " ++ weekday ++
        " must be a filename or null; got " ++ jsonRepr v)

/-- Shared tail of `pick_split_for_today`: rotate the default titles and
resolve the chosen title (the rotation state is persisted even when the
split file then turns out to be missing). -/
def rotateDefault (w : World) (username : String) (today : Date) :
    Except String DayOutcome × SchedStore :=
  let r := pick_today_index w.schedStore username today DEFAULT_ROTATION_TITLES.length
  match load_default_split_by_title w (DEFAULT_ROTATION_TITLES.getD r.1 "") with
  | .ok sp => (.ok (.workout sp), r.2)
  | .error e => (.error e, r.2)

/-- Embeds `send_daily.pick_split_for_today` (lines 211-232): weekly override
first (rest or explicit split, without touching the rotation state), then
a one-off custom plan (which still advances the rotation), then the
default rotation.  Returns the outcome together with the resulting
schedules store. -/
def pick_split_for_today (w : World) (username : String) (today : Date) :
    Except String DayOutcome × SchedStore :=
  match pick_scheduled_split_or_rest w today with
  | .error e => (.error e, w.schedStore)
  | .ok (some (.rest title msg)) => (.ok (.restDay title msg), w.schedStore)
  | .ok (some (.split sp)) => (.ok (.workout sp), w.schedStore)
  | .ok none =>
    match load_custom_plan_for_today w username today with
    | some c =>
      if c.exercises ≠ [] then
        let r := pick_today_index w.schedStore username today DEFAULT_ROTATION_TITLES.length
        (.ok (.workout c), r.2)
      else rotateDefault w username today
    | none => rotateDefault w username today

end send_daily

example : isoDate ⟨2024, 6, 2⟩ = "2024-06-02" := by decide
example : isoDate (predDate ⟨2024, 6, 2⟩) = "2024-06-01" := by decide
example : isoDate (predDate ⟨2024, 3, 1⟩) = "2024-02-29" := by decide
example : isoDate (predDate ⟨2023, 1, 1⟩) = "2022-12-31" := by decide
example : weekdayName ⟨2024, 6, 5⟩ = "Wednesday" := by decide
example : weekdayName ⟨2024, 6, 3⟩ = "Monday" := by decide
example : (plans.pick_today_index (fun _ => none) "alice" ⟨2024, 6, 2⟩ 3).1 = 1 := by
  decide
example :
    (send_daily.pick_today_index
      (fun _ => some ⟨4, "COMPLETED", some "2024-06-01"⟩) "alice" ⟨2024, 6, 2⟩ 5).1 = 0 := by
  decide
example :
    (send_daily.pick_today_index
      (fun _ => some ⟨2, "SKIPPED", some "2024-06-01"⟩) "alice" ⟨2024, 6, 2⟩ 5).1 = 2 := by
  decide

/-! ## Helper lemmas -/

theorem pyStrLe_refl (s : String) : pyStrLe s s = true := by
  unfold pyStrLe
  induction s.data with
  | nil => rfl
  | cons a as ih => simp [charListLe, ih]

/-! ## Claims about the rotation scheduler -/

/-- C1: the rotation transition is claimed to be same-day idempotent.
`plans.pick_today_index` violates this: from the zero state on
`2024-06-02` it returns index 1 and persists
`{current_index: 1, last_action: "NONE", last_action_date: "2024-06-02"}`,
and a second invocation with the same `today` and `total` advances again
to 2 instead of returning the stored index 1.  The `send_daily`
implementation, whose guard skips the rule when
`last_action_date == today`, returns 1 again on its second call. -/
theorem plans_pick_not_same_day_idempotent :
    ((plans.pick_today_index (fun _ => none) "alice" ⟨2024, 6, 2⟩ 3).1 = 1) ∧
    ((plans.pick_today_index
        (plans.pick_today_index (fun _ => none) "alice" ⟨2024, 6, 2⟩ 3).2
        "alice" ⟨2024, 6, 2⟩ 3).1 = 2) ∧
    ((send_daily.pick_today_index
        (send_daily.pick_today_index (fun _ => none) "alice" ⟨2024, 6, 2⟩ 3).2
        "alice" ⟨2024, 6, 2⟩ 3).1 = 1) := by decide

/-- C2: freeze law.  A stored state `{current_index: k, last_action:
"SKIPPED", last_action_date: yesterday}` with `k < total` makes both
implementations of the rotation transition return `k` unchanged. -/
theorem freeze_law (store : SchedStore) (u : String) (t : Date) (k total : Nat)
    (hk : k < total)
    (hs : store u = some ⟨k, "SKIPPED", some (isoDate (predDate t))⟩) :
    (plans.pick_today_index store u t total).1 = k ∧
    (send_daily.pick_today_index store u t total).1 = k := by
  have hmax : max 1 total = total := Nat.max_eq_right (by omega)
  have hmod : k % max 1 total = k := by rw [hmax]; exact Nat.mod_eq_of_lt hk
  constructor
  · unfold plans.pick_today_index plans.load_sched
    simp [hs, pyStrLe_refl, hmod]
  · unfold send_daily.pick_today_index send_daily.load_sched
    simp only [hs, Option.getD_some]
    split
    · simp [hmod]
    · simp [hmod]

theorem freeze_law_witness :
    2 < 5 ∧
    ((plans.pick_today_index
        (fun _ => some ⟨2, "SKIPPED", some (isoDate (predDate ⟨2024, 6, 2⟩))⟩)
        "alice" ⟨2024, 6, 2⟩ 5).1 = 2 ∧
      (send_daily.pick_today_index
        (fun _ => some ⟨2, "SKIPPED", some (isoDate (predDate ⟨2024, 6, 2⟩))⟩)
        "alice" ⟨2024, 6, 2⟩ 5).1 = 2) :=
  ⟨by decide, freeze_law _ "alice" ⟨2024, 6, 2⟩ 2 5 (by decide) rfl⟩

/-- C3: advance law.  When the loaded state has `last_action` equal to
`"COMPLETED"` or `"NONE"` and a `last_action_date` different from today
(a today not yet recorded, which covers the zero state), both
implementations return `(k + 1) % total`; with `total = 5`, `k = 4` this
wraps to 0, and from the zero state with `total = 3` the result is 1. -/
theorem advance_law (store : SchedStore) (u : String) (t : Date) (k total : Nat)
    (a : String) (ld : Option String) (htot : 0 < total)
    (hs : plans.load_sched store u = ⟨k, a, ld⟩)
    (ha : a = "COMPLETED" ∨ a = "NONE")
    (hld : ld ≠ some (isoDate t)) :
    (plans.pick_today_index store u t total).1 = (k + 1) % total ∧
    (send_daily.pick_today_index store u t total).1 = (k + 1) % total := by
  have hmax : max 1 total = total := Nat.max_eq_right (by omega)
  have hskip : (a == "SKIPPED") = false := by
    rcases ha with h | h <;> subst h <;> decide
  have hsend : send_daily.load_sched store u = ⟨k, a, ld⟩ := hs
  constructor
  · unfold plans.pick_today_index
    rw [hs]
    simp only [hskip, Bool.false_and, Bool.false_eq_true, if_false, hmax]
    exact Nat.mod_add_mod k total 1
  · unfold send_daily.pick_today_index
    rw [hsend]
    simp only [hskip, Bool.false_and, Bool.false_eq_true, if_false, hmax, ne_eq, hld,
      not_false_eq_true, if_true]
    exact Nat.mod_add_mod k total 1

theorem advance_law_witness :
    0 < 5 ∧ (some "2024-06-01" ≠ some (isoDate ⟨2024, 6, 2⟩)) ∧
    ((plans.pick_today_index
        (fun _ => some ⟨4, "COMPLETED", some "2024-06-01"⟩)
        "alice" ⟨2024, 6, 2⟩ 5).1 = (4 + 1) % 5 ∧
      (send_daily.pick_today_index
        (fun _ => some ⟨4, "COMPLETED", some "2024-06-01"⟩)
        "alice" ⟨2024, 6, 2⟩ 5).1 = (4 + 1) % 5) :=
  ⟨by decide, by decide,
    advance_law _ "alice" ⟨2024, 6, 2⟩ 4 5 "COMPLETED" (some "2024-06-01")
      (by decide) rfl (Or.inl rfl) (by decide)⟩

/-- C4: the claim says every invocation persists `last_action: "NONE"`.
`plans.pick_today_index` does, but `send_daily.pick_today_index` writes
back the prior `last_action` unchanged: from
`{current_index: 2, last_action: "SKIPPED", last_action_date: "2024-06-01"}`
on `2024-06-02` it persists `last_action: "SKIPPED"`, not `"NONE"`
(so the freeze would repeat on every following day). -/
theorem baseline_persistence_divergence :
    ((send_daily.pick_today_index
        (fun u => if u = "alice" then some ⟨2, "SKIPPED", some "2024-06-01"⟩ else none)
        "alice" ⟨2024, 6, 2⟩ 5).2 "alice" = some ⟨2, "SKIPPED", some "2024-06-02"⟩) ∧
    ((plans.pick_today_index
        (fun u => if u = "alice" then some ⟨2, "SKIPPED", some "2024-06-01"⟩ else none)
        "alice" ⟨2024, 6, 2⟩ 5).2 "alice" = some ⟨2, "NONE", some "2024-06-02"⟩) := by
  decide

/-- C9: bounds invariant.  For any stored state and positive `total`, both
implementations reduce the loaded index modulo `total` before use, so the
returned index is below `total` and the persisted record carries that same
index (hence also below `total`). -/
theorem rotation_index_bounds (store : SchedStore) (u : String) (t : Date)
    (total : Nat) (htot : 0 < total) :
    (plans.pick_today_index store u t total).1 < total ∧
    (send_daily.pick_today_index store u t total).1 < total ∧
    (plans.pick_today_index store u t total).2 u =
      some ⟨(plans.pick_today_index store u t total).1, "NONE", some (isoDate t)⟩ ∧
    (send_daily.pick_today_index store u t total).2 u =
      some ⟨(send_daily.pick_today_index store u t total).1,
        (send_daily.load_sched store u).last_action, some (isoDate t)⟩ := by
  have hmax : max 1 total = total := Nat.max_eq_right (by omega)
  refine ⟨?_, ?_, ?_, ?_⟩
  · unfold plans.pick_today_index
    simp only [hmax]
    split
    · exact Nat.mod_lt _ htot
    · exact Nat.mod_lt _ htot
  · unfold send_daily.pick_today_index
    simp only [hmax]
    split
    · split
      · exact Nat.mod_lt _ htot
      · exact Nat.mod_lt _ htot
    · exact Nat.mod_lt _ htot
  · unfold plans.pick_today_index plans.save_sched
    simp
  · unfold send_daily.pick_today_index send_daily.save_sched
    simp

theorem rotation_index_bounds_witness :
    0 < 3 ∧
    ((plans.pick_today_index (fun _ => none) "alice" ⟨2024, 6, 2⟩ 3).1 < 3 ∧
      (send_daily.pick_today_index (fun _ => none) "alice" ⟨2024, 6, 2⟩ 3).1 < 3 ∧
      (plans.pick_today_index (fun _ => none) "alice" ⟨2024, 6, 2⟩ 3).2 "alice" =
        some ⟨(plans.pick_today_index (fun _ => none) "alice" ⟨2024, 6, 2⟩ 3).1,
          "NONE", some (isoDate ⟨2024, 6, 2⟩)⟩ ∧
      (send_daily.pick_today_index (fun _ => none) "alice" ⟨2024, 6, 2⟩ 3).2 "alice" =
        some ⟨(send_daily.pick_today_index (fun _ => none) "alice" ⟨2024, 6, 2⟩ 3).1,
          (send_daily.load_sched (fun _ => none) "alice").last_action,
          some (isoDate ⟨2024, 6, 2⟩)⟩) :=
  ⟨by decide, rotation_index_bounds (fun _ => none) "alice" ⟨2024, 6, 2⟩ 3 (by decide)⟩

/-! ## Claims about the plan selector -/

/-- C7: rest-day frame effect.  When `config/schedule.json` is present and
its entry for today's weekday is missing/null, blank, or the
case-insensitive token "rest", `pick_split_for_today` returns the tagged
rest-day value (which carries no exercises) and the schedules store is
returned untouched — the rotation transition is never invoked. -/
theorem rest_day_frame (w : World) (u : String) (t : Date)
    (m : String → Option JVal)
    (hsched : w.scheduleJson = some m)
    (hentry : m (weekdayName t) = none ∨
      ∃ s, m (weekdayName t) = some (.str s) ∧
        (pyStrip s = "" ∨ (pyStrip s).toLower = "rest")) :
    send_daily.pick_split_for_today w u t =
      (.ok (.restDay "Rest Day" send_daily.REST_MESSAGE), w.schedStore) := by
  unfold send_daily.pick_split_for_today send_daily.pick_scheduled_split_or_rest
  rw [hsched]
  dsimp only
  rcases hentry with h | ⟨s, h, hs⟩
  · rw [h]
  · rw [h]
    rcases hs with hs | hs <;> simp [hs]

/-- C8: a present weekly-override entry that is neither a string nor null
(for example a number) makes `pick_split_for_today` fail with the
`ValueError` of `pick_scheduled_split_or_rest`, and the schedules store is
returned unchanged — nothing is persisted. -/
theorem malformed_override_fatal (w : World) (u : String) (t : Date)
    (m : String → Option JVal) (v : JVal)
    (hsched : w.scheduleJson = some m)
    (hentry : m (weekdayName t) = some v)
    (hnotstr : ∀ s, v ≠ .str s) :
    send_daily.pick_split_for_today w u t =
      (.error ("schedule.json entry for " ++ weekdayName t ++
        " must be a filename or null; got " ++ jsonRepr v), w.schedStore) := by
  unfold send_daily.pick_split_for_today send_daily.pick_scheduled_split_or_rest
  rw [hsched]
  dsimp only
  rw [hentry]
  cases v with
  | str s => exact absurd rfl (hnotstr s)
  | num n => rfl
  | bool b => rfl

/-- A small world used to instantiate the selector claims: the weekly
override maps Wednesday to nothing (rest) and Thursday to the number 3
(malformed). -/
def exampleSchedule : String → Option JVal := fun d =>
  if d = "Wednesday" then none
  else if d = "Thursday" then some (.num 3)
  else some (.str "Push_Day.json")

def exampleWorld : World :=
  { scheduleJson := some exampleSchedule
    splits := fun fn => if fn = "Push_Day.json" then some ⟨some "Push Day", some []⟩ else none
    customPlan := fun _ _ => none
    schedStore := fun _ => none }

theorem rest_day_frame_witness :
    (exampleWorld.scheduleJson = some exampleSchedule ∧
      exampleSchedule (weekdayName ⟨2024, 6, 5⟩) = none) ∧
    send_daily.pick_split_for_today exampleWorld "alice" ⟨2024, 6, 5⟩ =
      (.ok (.restDay "Rest Day" send_daily.REST_MESSAGE), exampleWorld.schedStore) :=
  ⟨⟨rfl, by decide⟩,
    rest_day_frame exampleWorld "alice" ⟨2024, 6, 5⟩ exampleSchedule rfl (Or.inl (by decide))⟩

theorem malformed_override_fatal_witness :
    (exampleWorld.scheduleJson = some exampleSchedule ∧
      exampleSchedule (weekdayName ⟨2024, 6, 6⟩) = some (.num 3)) ∧
    send_daily.pick_split_for_today exampleWorld "alice" ⟨2024, 6, 6⟩ =
      (.error ("schedule.json entry for " ++ weekdayName ⟨2024, 6, 6⟩ ++
        " must be a filename or null; got " ++ jsonRepr (.num 3)), exampleWorld.schedStore) :=
  ⟨⟨rfl, by decide⟩,
    malformed_override_fatal exampleWorld "alice" ⟨2024, 6, 6⟩ exampleSchedule (.num 3) rfl
      (by decide) (fun s h => JVal.noConfusion h)⟩

/-! ## Claims about the signers -/

/-- C5: reserved-key exclusion.  The canonical signer
(`signing.sign_params`) filters the reserved key `"t"` out of its input
before canonicalizing, so signing a mapping with `"t"` present yields the
same token as signing the same mapping with `"t"` removed. -/
theorem reserved_key_exclusion (p : List (String × String)) (s : String) :
    signing.sign_params p s = signing.sign_params (p.filter fun kv => kv.1 != "t") s := by
  unfold signing.sign_params
  rw [List.filter_filter]
  simp only [Bool.and_self]

/-- C6 counterexample: the library signer computes a token for the empty
secret instead of failing (its source has no emptiness check and no raise
path; `hmac.new` accepts an empty key). -/
theorem lib_signer_accepts_empty_secret :
    (signing.sign_params [("u", "alice")] "").isOk = true := rfl

/-- C6 amended: only the sender's signer checks the secret:
`send_daily.sign_params` fails on an empty secret and returns a token for
every non-empty secret, while `signing.sign_params` returns a token for
every secret, the empty one included. -/
theorem empty_secret_check_amended :
    (∀ p : List (String × String),
      send_daily.sign_params "" p = .error "SIGNING_SECRET is not set") ∧
    (∀ (p : List (String × String)) (s : String), s ≠ "" →
      (send_daily.sign_params s p).isOk = true) ∧
    (∀ (p : List (String × String)) (s : String),
      (signing.sign_params p s).isOk = true) := by
  refine ⟨fun p => rfl, fun p s hs => ?_, fun p s => rfl⟩
  unfold send_daily.sign_params
  rw [if_neg hs]
  rfl

theorem empty_secret_check_amended_witness :
    ("k" : String) ≠ "" ∧ (send_daily.sign_params "k" [("u", "alice")]).isOk = true :=
  ⟨by decide, empty_secret_check_amended.2.1 [("u", "alice")] "k" (by decide)⟩

/-! ## C10: equivalence of the two signer implementations -/

instance : IsTotal (String × String) signing.pairLe :=
  ⟨fun a b => by
    unfold signing.pairLe
    rcases lt_trichotomy a.1 b.1 with h | h | h
    · exact Or.inl (Or.inl h)
    · rcases le_total a.2 b.2 with h2 | h2
      · exact Or.inl (Or.inr ⟨h, h2⟩)
      · exact Or.inr (Or.inr ⟨h.symm, h2⟩)
    · exact Or.inr (Or.inl h)⟩

instance : IsTrans (String × String) signing.pairLe :=
  ⟨fun a b c hab hbc => by
    unfold signing.pairLe at *
    rcases hab with h | ⟨he, hv⟩ <;> rcases hbc with h2 | ⟨he2, hv2⟩
    · exact Or.inl (lt_trans h h2)
    · exact Or.inl (lt_of_lt_of_le h (le_of_eq he2))
    · exact Or.inl (lt_of_le_of_lt (le_of_eq he) h2)
    · exact Or.inr ⟨he.trans he2, le_trans hv hv2⟩⟩

/-- Looking a key up in an association list with distinct keys returns the
value it is paired with. -/
theorem dictGet_eq_of_mem (p : List (String × String)) (k v : String)
    (hnd : (p.map Prod.fst).Nodup) (hkv : (k, v) ∈ p) :
    send_daily.dictGet p k = v := by
  induction p with
  | nil => cases hkv
  | cons hd tl ih =>
    rw [List.map_cons, List.nodup_cons] at hnd
    rcases List.mem_cons.mp hkv with heq | hmem
    · rw [← heq]
      simp [send_daily.dictGet]
    · have hne : hd.1 ≠ k := by
        intro he
        exact hnd.1 (he ▸ List.mem_map_of_mem Prod.fst hmem)
      have hrec := ih hnd.2 hmem
      unfold send_daily.dictGet at hrec ⊢
      rw [List.find?_cons_of_neg _ (by simp [hne])]
      exact hrec

/-- A list sorted for the pair order whose keys are distinct is strictly
sorted by key. -/
theorem sorted_keyLt_of_pairLe {l : List (String × String)}
    (hs : l.Sorted signing.pairLe) (hnd : (l.map Prod.fst).Nodup) :
    l.Sorted (fun a b => a.1 < b.1) := by
  have hne : l.Pairwise (fun a b => a.1 ≠ b.1) := List.pairwise_map.mp hnd
  exact (hs.and hne).imp (fun h => by
    rcases h with ⟨hab | ⟨he, _⟩, hne1⟩
    · exact hab
    · exact absurd he hne1)

/-- The sorted pair list of the library signer equals the sorted key list
of the sender paired with the dictionary lookups, provided the keys are
distinct. -/
theorem insertionSort_pairs_eq_keys (p : List (String × String))
    (hnd : (p.map Prod.fst).Nodup) :
    List.insertionSort signing.pairLe p =
      (List.insertionSort (fun a b : String => a ≤ b) (p.map Prod.fst)).map
        (fun k => (k, send_daily.dictGet p k)) := by
  haveI : IsAntisymm (String × String) (fun a b => a.1 < b.1) :=
    ⟨fun a b h1 h2 => (lt_asymm h1 h2).elim⟩
  have hLp : List.Perm (List.insertionSort signing.pairLe p) p :=
    List.perm_insertionSort _ p
  have hKkeys : List.Perm
      (List.insertionSort (fun a b : String => a ≤ b) (p.map Prod.fst))
      (p.map Prod.fst) := List.perm_insertionSort _ _
  have hmapid : (p.map Prod.fst).map (fun k => (k, send_daily.dictGet p k)) = p := by
    rw [List.map_map]
    have h1 : ∀ kv ∈ p, ((fun k => (k, send_daily.dictGet p k)) ∘ Prod.fst) kv = id kv := by
      intro kv hkv
      have := dictGet_eq_of_mem p kv.1 kv.2 hnd hkv
      simp [this]
    rw [List.map_congr_left h1, List.map_id]
  have hRp : List.Perm
      ((List.insertionSort (fun a b : String => a ≤ b) (p.map Prod.fst)).map
        (fun k => (k, send_daily.dictGet p k))) p := by
    have h1 := hKkeys.map (fun k => (k, send_daily.dictGet p k))
    rwa [hmapid] at h1
  have hperm : List.Perm (List.insertionSort signing.pairLe p)
      ((List.insertionSort (fun a b : String => a ≤ b) (p.map Prod.fst)).map
        (fun k => (k, send_daily.dictGet p k))) := hLp.trans hRp.symm
  have hndL : ((List.insertionSort signing.pairLe p).map Prod.fst).Nodup :=
    ((hLp.map Prod.fst).nodup_iff).mpr hnd
  have hndK : (List.insertionSort (fun a b : String => a ≤ b) (p.map Prod.fst)).Nodup :=
    hKkeys.nodup_iff.mpr hnd
  have hsortL : (List.insertionSort signing.pairLe p).Sorted
      (fun a b : String × String => a.1 < b.1) :=
    sorted_keyLt_of_pairLe (List.sorted_insertionSort _ p) hndL
  have hsortK : (List.insertionSort (fun a b : String => a ≤ b) (p.map Prod.fst)).Sorted
      (fun a b : String => a < b) := by
    have hle : (List.insertionSort (fun a b : String => a ≤ b) (p.map Prod.fst)).Sorted
        (fun a b : String => a ≤ b) := List.sorted_insertionSort _ _
    exact (hle.and hndK).imp (fun h => lt_of_le_of_ne h.1 h.2)
  have hsortR : ((List.insertionSort (fun a b : String => a ≤ b) (p.map Prod.fst)).map
      (fun k => (k, send_daily.dictGet p k))).Sorted
        (fun a b : String × String => a.1 < b.1) := by
    rw [List.Sorted, List.pairwise_map]
    exact hsortK
  exact List.eq_of_perm_of_sorted hperm hsortL hsortR

/-- C10: on a parameter mapping with distinct keys, none of them the
reserved `"t"`, and a non-empty secret, the sender's signer and the
library signer produce the same token. -/
theorem signer_equivalence (p : List (String × String)) (s : String)
    (hnd : (p.map Prod.fst).Nodup)
    (hnt : "t" ∉ p.map Prod.fst)
    (hs : s ≠ "") :
    send_daily.sign_params s p = signing.sign_params p s := by
  have hfilter : (p.filter fun kv => kv.1 != "t") = p := by
    apply List.filter_eq_self.mpr
    intro kv hkv
    have : kv.1 ≠ "t" := fun he => hnt (he ▸ List.mem_map_of_mem Prod.fst hkv)
    simpa using this
  unfold send_daily.sign_params signing.sign_params
  rw [if_neg hs, hfilter, insertionSort_pairs_eq_keys p hnd]
  dsimp only
  rw [List.map_map]
  rfl

theorem signer_equivalence_witness :
    (([("u", "alice"), ("d", "2024-06-02")].map
        (Prod.fst (α := String) (β := String))).Nodup ∧
      "t" ∉ [("u", "alice"), ("d", "2024-06-02")].map
        (Prod.fst (α := String) (β := String)) ∧
      ("k" : String) ≠ "") ∧
    send_daily.sign_params "k" [("u", "alice"), ("d", "2024-06-02")] =
      signing.sign_params [("u", "alice"), ("d", "2024-06-02")] "k" :=
  ⟨⟨by decide, by decide, by decide⟩,
    signer_equivalence [("u", "alice"), ("d", "2024-06-02")] "k"
      (by decide) (by decide) (by decide)⟩
